import Mathlib

/-!
Verification development for the image preprocessing and text-region trimming
pipeline of the AI tutor application (src/utils/image_processor.py and
src/utils/image_processing_parts/*).

The embedding is shallow: Python functions become Lean functions; the OpenCV /
Pillow / pytesseract library primitives that the repository merely calls
(cv2.adaptiveThreshold, cv2.findContours, PIL.Image.crop, ...) are modelled as
oracle parameters bundled in environment records, while every piece of logic
written in the repository itself (parameter normalization, filtering,
bounding-box arithmetic, fallback control flow, strategy arbitration) is
translated faithfully.  Images are modelled by their dimensions; pixel data is
never inspected by the repository logic under verification (only shapes,
contour areas and bounding rectangles are), so dimensions are the full
observable state.  Python ints are ℤ, Python floats appearing in exact
arithmetic positions are ℚ.
-/

namespace ImagePipeline

/-- Model of a Pillow image (`PIL.Image.Image`): the pipeline logic observes
only its size (`img.width`, `img.height`). -/
structure PILImage where
  width : Nat
  height : Nat
deriving DecidableEq

/-- Model of an OpenCV/numpy 2-D array image: `shape` is `(height, width)`;
the fields mirror `original_height, original_width = img_cv_gray.shape[:2]`. -/
structure CVImage where
  height : Nat
  width : Nat
deriving DecidableEq

/-- A bounding rectangle as returned by `cv2.boundingRect`: `(x, y, w, h)`. -/
structure Rect where
  x : Int
  y : Int
  w : Int
  h : Int
deriving DecidableEq

/-- Rect `r` lies inside a `W × H` image and has non-negative extent.  This is
an invariant of every rectangle `cv2.boundingRect` produces for a contour of a
`W × H` image, and of every tesseract word box of such an image. -/
def Rect.inBounds (r : Rect) (W H : Int) : Prop :=
  0 ≤ r.x ∧ 0 ≤ r.y ∧ 0 ≤ r.w ∧ 0 ≤ r.h ∧ r.x + r.w ≤ W ∧ r.y + r.h ≤ H

instance (r : Rect) (W H : Int) : Decidable (r.inBounds W H) :=
  inferInstanceAs (Decidable (_ ∧ _ ∧ _ ∧ _ ∧ _ ∧ _))

/-- A connected component found by `cv2.findContours`, observed through the
only two accessors the repository applies to it: `cv2.contourArea` and
`cv2.boundingRect`. -/
structure Contour where
  area : Rat
  rect : Rect
deriving DecidableEq

/-- Morphological operation selector (`operation: Literal["open", "close"]` in
`apply_morphological_operation`). -/
inductive MorphOp where
  | opening
  | closing
deriving DecidableEq

/-- The contour-trimming parameter record.  It mirrors the
`trim_params.get(key, default)` reads at the top of `trim_image_by_contours`
(contour_trimmers.py lines 43-70); the Lean defaults are the Python defaults.
The gaussian-blur kernel list/tuple format dispatch collapses to a plain pair
here. -/
structure TrimParams where
  padding : Int := 0
  adaptiveThreshBlockSize : Int := 11
  adaptiveThreshC : Int := 7
  minContourAreaRatio : Rat := 1 / 20000
  gaussianBlurKernel : Int × Int := (0, 0)
  morphOpenApply : Bool := false
  morphOpenKernelSize : Int := 3
  morphOpenIterations : Int := 1
  morphCloseApply : Bool := false
  morphCloseKernelSize : Int := 3
  morphCloseIterations : Int := 1
deriving DecidableEq

/-- Oracle record for the OpenCV primitives invoked by the pipeline.  Each
oracle returns `none` where the Python call would raise (caught by the
repository's `try/except` blocks) and `some` of the produced image otherwise. -/
structure CvEnv where
  toGray : PILImage → Option CVImage
  cvGaussianBlur : CVImage → Int × Int → Option CVImage
  cvAdaptiveThreshold : CVImage → Int → Int → Option CVImage
  cvMorphologyEx : CVImage → MorphOp → Int → Int → Option CVImage
  findContours : CVImage → List Contour

/-- The cv2 image-to-image primitives preserve the array shape.  This is a
documented property of `cv2.GaussianBlur`, `cv2.adaptiveThreshold` and
`cv2.morphologyEx`, stated here as a hypothesis on the oracle environment. -/
def CvEnv.preservesDims (env : CvEnv) : Prop :=
  (∀ i k r, env.cvGaussianBlur i k = some r → r.height = i.height ∧ r.width = i.width) ∧
  (∀ i b c r, env.cvAdaptiveThreshold i b c = some r → r.height = i.height ∧ r.width = i.width) ∧
  (∀ i op k n r, env.cvMorphologyEx i op k n = some r → r.height = i.height ∧ r.width = i.width)

/-- Every contour reported by `cv2.findContours` for an image lies inside that
image, so its bounding rectangle is in bounds.  A documented cv2 property,
stated as a hypothesis on the oracle environment. -/
def CvEnv.contoursInBounds (env : CvEnv) : Prop :=
  ∀ i c, c ∈ env.findContours i → c.rect.inBounds (i.width : Int) (i.height : Int)

/-! ### Minimum / maximum of a Python list

`min(xs)` / `max(xs)` over a non-empty Python list of ints, as used for
`x_bbox = min(x_coords)` etc. in contour_trimmers.py lines 215-218 and
`min(all_x)` etc. in ocr_processors.py lines 152-153. -/

/-- Value of Python `min(xs)` for a list of ints; `none` for the empty list
(where Python would raise, a case both call sites guard against). -/
def listMin : List Int → Option Int
  | [] => none
  | a :: rest =>
    match listMin rest with
    | none => some a
    | some m => some (min a m)

/-- Value of Python `max(xs)` for a list of ints; `none` for the empty list. -/
def listMax : List Int → Option Int
  | [] => none
  | a :: rest =>
    match listMax rest with
    | none => some a
    | some m => some (max a m)

theorem listMin_isSome_of_ne_nil {l : List Int} (h : l ≠ []) :
    ∃ m, listMin l = some m := by
  cases l with
  | nil => exact absurd rfl h
  | cons a rest =>
    cases hrest : listMin rest with
    | none => exact ⟨a, by simp [listMin, hrest]⟩
    | some m => exact ⟨min a m, by simp [listMin, hrest]⟩

theorem listMax_isSome_of_ne_nil {l : List Int} (h : l ≠ []) :
    ∃ m, listMax l = some m := by
  cases l with
  | nil => exact absurd rfl h
  | cons a rest =>
    cases hrest : listMax rest with
    | none => exact ⟨a, by simp [listMax, hrest]⟩
    | some m => exact ⟨max a m, by simp [listMax, hrest]⟩

theorem listMin_le_of_mem : ∀ {l : List Int} {m x : Int},
    listMin l = some m → x ∈ l → m ≤ x := by
  intro l
  induction l with
  | nil => intro m x _ hx; cases hx
  | cons a rest ih =>
    intro m x hm hx
    cases hrest : listMin rest with
    | none =>
      have hnil : rest = [] := by
        cases rest with
        | nil => rfl
        | cons b r2 =>
          exfalso
          rcases listMin_isSome_of_ne_nil (l := b :: r2) (by simp) with ⟨mm, hmm⟩
          rw [hmm] at hrest; cases hrest
      subst hnil
      simp [listMin] at hm
      subst hm
      simp at hx
      omega
    | some mr =>
      simp [listMin, hrest] at hm
      subst hm
      rcases List.mem_cons.mp hx with rfl | hx'
      · exact min_le_left _ _
      · exact le_trans (min_le_right _ _) (ih hrest hx')

theorem le_listMax_of_mem : ∀ {l : List Int} {m x : Int},
    listMax l = some m → x ∈ l → x ≤ m := by
  intro l
  induction l with
  | nil => intro m x _ hx; cases hx
  | cons a rest ih =>
    intro m x hm hx
    cases hrest : listMax rest with
    | none =>
      have hnil : rest = [] := by
        cases rest with
        | nil => rfl
        | cons b r2 =>
          exfalso
          rcases listMax_isSome_of_ne_nil (l := b :: r2) (by simp) with ⟨mm, hmm⟩
          rw [hmm] at hrest; cases hrest
      subst hnil
      simp [listMax] at hm
      subst hm
      simp at hx
      omega
    | some mr =>
      simp [listMax, hrest] at hm
      subst hm
      rcases List.mem_cons.mp hx with rfl | hx'
      · exact le_max_left _ _
      · exact le_trans (ih hrest hx') (le_max_right _ _)

/-! ### opencv_pipeline_utils.py -/

/-- Block-size normalization inside `apply_adaptive_threshold`
(opencv_pipeline_utils.py lines 63-68): clamp to at least 3, then bump even
values to the next odd. -/
def normalizeAdaptiveBlockSize (blockSize : Int) : Int :=
  let b := if blockSize < 3 then 3 else blockSize
  if b % 2 = 0 then b + 1 else b

/-- Embedding of `apply_adaptive_threshold` (opencv_pipeline_utils.py lines
51-77): normalize the block size, then invoke the cv2 primitive; an exception
in the primitive yields `none`. -/
def applyAdaptiveThreshold (env : CvEnv) (img : CVImage) (blockSize cValue : Int) :
    Option CVImage :=
  env.cvAdaptiveThreshold img (normalizeAdaptiveBlockSize blockSize) cValue

/-- Kernel-size normalization inside `apply_morphological_operation`
(opencv_pipeline_utils.py line 97): even sizes are bumped to the next odd. -/
def normalizeMorphKernelSize (kernelSize : Int) : Int :=
  if kernelSize % 2 ≠ 0 then kernelSize else kernelSize + 1

/-- Embedding of `apply_morphological_operation` (opencv_pipeline_utils.py
lines 79-113): reject non-positive kernel sizes and iteration counts below 1
without touching the primitive, otherwise invoke `cv2.morphologyEx` with the
normalized odd kernel size. -/
def applyMorphologicalOperation (env : CvEnv) (img : CVImage) (op : MorphOp)
    (kernelSize iterations : Int) : Option CVImage :=
  if ¬ (0 < kernelSize) then none
  else if ¬ (1 ≤ iterations) then none
  else env.cvMorphologyEx img op (normalizeMorphKernelSize kernelSize) iterations

/-- Embedding of `apply_gaussian_blur` (opencv_pipeline_utils.py lines 27-48):
apply the primitive only for positive odd kernel pairs; a zero component means
"no blur" (returns a copy); other invalid sizes also return a copy. -/
def applyGaussianBlur (env : CvEnv) (img : CVImage) (k : Int × Int) : Option CVImage :=
  if 0 < k.1 ∧ 0 < k.2 ∧ k.1 % 2 ≠ 0 ∧ k.2 % 2 ≠ 0 then
    env.cvGaussianBlur img k
  else if k.1 = 0 ∨ k.2 = 0 then some img
  else some img

/-! ### contour_trimmers.py — `trim_image_by_contours`

The debug-image side channel (`debug_image_collector`) is purely diagnostic
(appends labelled encodings of intermediate images, never read back) and is
omitted from the embedding.  The `isinstance` input-type checks at lines 34-39
guard against wrongly-typed Python arguments, which the typed embedding cannot
represent; all remaining control flow is translated. -/

/-- The absolute area floor `original_width * original_height *
min_contour_area_ratio` (contour_trimmers.py line 173). -/
def minAbsoluteArea (W H : Nat) (ratio : Rat) : Rat :=
  (W : Rat) * (H : Rat) * ratio

/-- The area filter over the found contours (contour_trimmers.py lines
174-188): keep exactly the contours with `cv2.contourArea(contour) >=
min_absolute_area`. -/
def validContours (contours : List Contour) (minArea : Rat) : List Contour :=
  contours.filter (fun c => decide (minArea ≤ c.area))

/-- The `x_coords` list (contour_trimmers.py lines 205-210): for each valid
contour append its bounding rectangle's left edge and right edge. -/
def contourXCoords (cs : List Contour) : List Int :=
  cs.flatMap (fun c => [c.rect.x, c.rect.x + c.rect.w])

/-- The `y_coords` list (contour_trimmers.py lines 205-210): top and bottom
edges of each valid contour's bounding rectangle. -/
def contourYCoords (cs : List Contour) : List Int :=
  cs.flatMap (fun c => [c.rect.y, c.rect.y + c.rect.h])

/-- Union-bounding-box and crop-window computation of the contour trimmer
(contour_trimmers.py lines 205-261): bbox from the min/max of the collected
edge coordinates, padding expansion clamped to the image bounds `(W, H)` of
the grayscale input, and the degenerate-region guard.  Returns the crop window
`(x1, y1, x2, y2)`, or `none` where the source falls back (empty coordinate
lists, or `crop_x2 <= crop_x1 or crop_y2 <= crop_y1`). -/
def contourCropRegion (W H : Nat) (padding : Int) (valid : List Contour) :
    Option (Int × Int × Int × Int) :=
  match listMin (contourXCoords valid), listMax (contourXCoords valid),
      listMin (contourYCoords valid), listMax (contourYCoords valid) with
  | some xmin, some xmax, some ymin, some ymax =>
    -- x_bbox = xmin, w_bbox = xmax - xmin, final_x + final_w = xmax (lines 215-218, 251)
    let cropX1 := max 0 (xmin - padding)
    let cropY1 := max 0 (ymin - padding)
    let cropX2 := min (W : Int) (xmin + (xmax - xmin) + padding)
    let cropY2 := min (H : Int) (ymin + (ymax - ymin) + padding)
    if cropX2 ≤ cropX1 ∨ cropY2 ≤ cropY1 then none
    else some (cropX1, cropY1, cropX2, cropY2)
  | _, _, _, _ => none

/-- Blur → adaptive threshold → optional morphological open/close
(contour_trimmers.py lines 108-158), producing `contours_input_image`.
Blur failure falls back to the grayscale input; each morphology failure falls
back to its own input; threshold failure aborts (`none`). -/
def contourBinaryStage (env : CvEnv) (gray : CVImage) (p : TrimParams) :
    Option CVImage :=
  let blurred := (applyGaussianBlur env gray p.gaussianBlurKernel).getD gray
  match applyAdaptiveThreshold env blurred p.adaptiveThreshBlockSize p.adaptiveThreshC with
  | none => none
  | some thresh =>
    let afterOpen :=
      if p.morphOpenApply then
        (applyMorphologicalOperation env thresh MorphOp.opening
          p.morphOpenKernelSize p.morphOpenIterations).getD thresh
      else thresh
    let afterClose :=
      if p.morphCloseApply then
        (applyMorphologicalOperation env afterOpen MorphOp.closing
          p.morphCloseKernelSize p.morphCloseIterations).getD afterOpen
      else afterOpen
    some afterClose

/-- Dimensions of `PIL.Image.crop((x1, y1, x2, y2))`: Pillow returns a `(x2 -
x1) × (y2 - y1)` image for any box. -/
def pilCrop (_img : PILImage) (x1 y1 x2 y2 : Int) : PILImage :=
  { width := (x2 - x1).toNat, height := (y2 - y1).toNat }

/-- Dimensions of the numpy slice `arr[y1:y2, x1:x2]` for non-negative slice
indices: each axis is clamped to the array extent. -/
def npSliceDims (img : CVImage) (y1 y2 x1 x2 : Int) : CVImage :=
  { height := (min y2 (img.height : Int) - min y1 (img.height : Int)).toNat
    width := (min x2 (img.width : Int) - min x1 (img.width : Int)).toNat }

/-- Dimensions of `PIL.Image.convert('L')`: size is unchanged (only the color
mode changes, which the dimension model does not track). -/
def pilConvertL (img : PILImage) : PILImage := img

/-- Body of `trim_image_by_contours` after the successful grayscale conversion
(contour_trimmers.py lines 82-288), parameterized by the grayscale image whose
shape supplies `original_height, original_width`.  Every failure path returns
`(some img, none)`, i.e. the unmodified input as main image (the source's
`img_pil_original_for_crop`). -/
def trimByContoursFromGray (env : CvEnv) (img : PILImage) (p : TrimParams)
    (gray : CVImage) : Option PILImage × Option PILImage :=
  match contourBinaryStage env gray p with
  | none => (some img, none)  -- adaptive thresholding failed (lines 118-120)
  | some contoursInput =>
    let contours := env.findContours contoursInput
    if contours.isEmpty then (some img, none)  -- no contours found (lines 162-164)
    else
      let valid := validContours contours
        (minAbsoluteArea gray.width gray.height p.minContourAreaRatio)
      if valid.isEmpty then (some img, none)  -- no valid contours (lines 190-192)
      else
        match contourCropRegion gray.width gray.height p.padding valid with
        | none => (some img, none)  -- empty coords / degenerate crop (213, 259-261)
        | some (x1, y1, x2, y2) =>
          let mainCrop := pilCrop img x1 y1 x2 y2
          let slicedBinary := npSliceDims contoursInput y1 y2 x1 x2
          if 0 < slicedBinary.height * slicedBinary.width then
            (some mainCrop,
              some { width := slicedBinary.width, height := slicedBinary.height })
          else
            -- empty binary crop: fall back to grayscale of the cropped original
            (some mainCrop, some (pilConvertL mainCrop))

/-- Embedding of `trim_image_by_contours` (contour_trimmers.py lines 23-295):
grayscale conversion failure returns the unmodified input as main image with
no binary companion; otherwise proceed with the converted image. -/
def trimByContours (env : CvEnv) (img : PILImage) (p : TrimParams) :
    Option PILImage × Option PILImage :=
  match env.toGray img with
  | none => (some img, none)  -- gray conversion failed (lines 79-81)
  | some gray => trimByContoursFromGray env img p gray

/-! ### ocr_processors.py — `trim_image_by_ocr_text_bounds`

The pytesseract `image_to_data` call is the external detection oracle; its
output, the per-row dictionary of hierarchy level, text, confidence and box
geometry, is passed to the embedding as a list of `OcrBox` records.  The
debug-rendering side channel (`return_debug_cv_image`) only draws rectangles
on a scratch copy and is omitted. -/

/-- One row of the pytesseract `image_to_data` output as the source reads it:
hierarchy `level`, recognized `text`, `conf`idence (a numeric string / float,
modelled as ℚ), and the box geometry `left`, `top`, `width`, `height`. -/
structure OcrBox where
  level : Int
  text : String
  conf : Rat
  left : Int
  top : Int
  width : Int
  height : Int
deriving DecidableEq

/-- The OCR-trim keyword parameters of `trim_image_by_ocr_text_bounds`
(ocr_processors.py lines 54-66); `lang` and `tesseract_config` only
parameterize the external OCR call and are omitted. -/
structure OcrTrimParams where
  padding : Int := 0
  minConfidence : Int := 30
  minBoxHeight : Int := 5
  maxBoxHeightRatio : Rat := 3 / 10
  minBoxWidth : Int := 5
  maxBoxWidthRatio : Rat := 4 / 5
  minAspectRatio : Rat := 1 / 10
  maxAspectRatio : Rat := 10
deriving DecidableEq

/-- Value of Python `int(float(q))` for a numeric value `q`: truncation toward
zero. -/
def pyTruncToInt (q : Rat) : Int :=
  if 0 ≤ q then ⌊q⌋ else ⌈q⌉

/-- The acceptance test applied to each detected row (ocr_processors.py lines
119-145), in the source's order: word level 5 with non-blank stripped text and
truncated confidence at least `min_confidence`; positive width and height;
then the absolute floors, the relative ceilings and the aspect-ratio window. -/
def ocrBoxAccepted (imgW imgH : Nat) (p : OcrTrimParams) (b : OcrBox) : Bool :=
  if ¬ (b.level = 5 ∧ b.text.trim ≠ "" ∧ p.minConfidence ≤ pyTruncToInt b.conf) then
    false
  else if ¬ (0 < b.width ∧ 0 < b.height) then false
  else if b.width < p.minBoxWidth ∨ b.height < p.minBoxHeight then false
  else if (imgH : Rat) * p.maxBoxHeightRatio < (b.height : Rat) ∨
      (imgW : Rat) * p.maxBoxWidthRatio < (b.width : Rat) then false
  else if ¬ (p.minAspectRatio ≤ (b.width : Rat) / (b.height : Rat) ∧
      (b.width : Rat) / (b.height : Rat) ≤ p.maxAspectRatio) then false
  else true

/-- The boxes that contribute to `all_x` / `all_y` / `all_x_plus_w` /
`all_y_plus_h` (ocr_processors.py lines 139-143): exactly the accepted rows. -/
def ocrValidBoxes (imgW imgH : Nat) (p : OcrTrimParams) (boxes : List OcrBox) :
    List OcrBox :=
  boxes.filter (ocrBoxAccepted imgW imgH p)

/-- Union-bounding-box and crop-window computation of the OCR trimmer
(ocr_processors.py lines 152-163): min of the lefts/tops, max of the
rights/bottoms, padding expansion clamped to the Pillow image bounds, and the
degenerate-region guard. -/
def ocrCropRegion (img : PILImage) (padding : Int) (valid : List OcrBox) :
    Option (Int × Int × Int × Int) :=
  match listMin (valid.map (fun b => b.left)), listMin (valid.map (fun b => b.top)),
      listMax (valid.map (fun b => b.left + b.width)),
      listMax (valid.map (fun b => b.top + b.height)) with
  | some minX, some minY, some maxXW, some maxYH =>
    let cropX1 := max 0 (minX - padding)
    let cropY1 := max 0 (minY - padding)
    let cropX2 := min (img.width : Int) (maxXW + padding)
    let cropY2 := min (img.height : Int) (maxYH + padding)
    if cropX2 ≤ cropX1 ∨ cropY2 ≤ cropY1 then none
    else some (cropX1, cropY1, cropX2, cropY2)
  | _, _, _, _ => none

/-- Embedding of `trim_image_by_ocr_text_bounds` (ocr_processors.py lines
54-183) given the detection output `boxes`: no rows at all, no accepted rows,
or a degenerate crop window each return `none`; otherwise crop the oriented
image to the computed window. -/
def trimImageByOcrTextBounds (img : PILImage) (boxes : List OcrBox)
    (p : OcrTrimParams) : Option PILImage :=
  if boxes.isEmpty then none  -- n_boxes == 0 (lines 107-110)
  else
    let valid := ocrValidBoxes img.width img.height p boxes
    if valid.isEmpty then none  -- num_valid_boxes_after_filter == 0 (147-150)
    else
      match ocrCropRegion img p.padding valid with
      | none => none  -- invalid crop region (lines 160-163)
      | some (x1, y1, x2, y2) => some (pilCrop img x1 y1 x2 y2)

/-- Predicate modelled from the spec's words (claim C5 / spec §4.4 step 2):
a box is valid iff confidence ≥ minConfidence, text is non-blank, width ≥
minBoxWidth and height ≥ minBoxHeight, width ≤ imageWidth·maxBoxWidthRatio and
height ≤ imageHeight·maxBoxHeightRatio, and aspect ratio (width/height) lies
within [minAspectRatio, maxAspectRatio]. -/
def ocrBoxValidSpec (imgW imgH : Nat) (p : OcrTrimParams) (b : OcrBox) : Prop :=
  (p.minConfidence : Rat) ≤ b.conf ∧
  b.text.trim ≠ "" ∧
  p.minBoxWidth ≤ b.width ∧ p.minBoxHeight ≤ b.height ∧
  (b.width : Rat) ≤ (imgW : Rat) * p.maxBoxWidthRatio ∧
  (b.height : Rat) ≤ (imgH : Rat) * p.maxBoxHeightRatio ∧
  p.minAspectRatio ≤ (b.width : Rat) / (b.height : Rat) ∧
  (b.width : Rat) / (b.height : Rat) ≤ p.maxAspectRatio

/-! ### base_image_utils.py — resize and 90°-rotation arbitration -/

/-- Embedding of `resize_image_pillow` (base_image_utils.py lines 79-98).
The source computes `scale_factor = (max_total_pixels / current_pixels) **
0.5` and `new_width = int(img.width * scale_factor)` in floating point; the
embedding models that computation in exact real arithmetic:
`int(w * sqrt(m / c)) = ⌊sqrt(w² · m / c)⌋ = Nat.sqrt (w² * m / c)` (all
quantities non-negative, `/` on the right being natural division).  A falsy or
non-positive pixel budget returns a copy; so does a budget the image already
meets, and so does a resize whose resulting dimension would drop below 1. -/
def resizeImagePillow (img : PILImage) (maxTotalPixels : Option Int) : PILImage :=
  match maxTotalPixels with
  | none => img
  | some m =>
    if m ≤ 0 then img
    else
      let currentPixels := img.width * img.height
      if m < (currentPixels : Int) then
        let newWidth := Nat.sqrt (img.width ^ 2 * m.toNat / currentPixels)
        let newHeight := Nat.sqrt (img.height ^ 2 * m.toNat / currentPixels)
        if 1 ≤ newWidth ∧ 1 ≤ newHeight then
          { width := newWidth, height := newHeight }
        else img
      else img

/-- The arbitration over the projection-scoring and OCR 90°-rotation
estimates inside `orient_image_comprehensively` (base_image_utils.py lines
260-281), mirroring the source's branch structure (including the redundant
agree/disagree split, both of which pick the projection result). -/
def decideFinal90Rotation (projectionRotationAngle ocrRotationAngle : Int) : Int :=
  if projectionRotationAngle ≠ 0 then
    if ocrRotationAngle ≠ 0 then
      if projectionRotationAngle ≠ ocrRotationAngle then projectionRotationAngle
      else projectionRotationAngle
    else projectionRotationAngle
  else if ocrRotationAngle ≠ 0 then ocrRotationAngle
  else 0

/-- Application of the decided rotation (base_image_utils.py lines 283-288):
a non-zero angle rotates once (an exception during rotation keeps the current
image, modelled by the `Option`-valued `rotate` oracle); angle 0 applies no
rotation. -/
def applyDecided90Rotation (rotate : PILImage → Int → Option PILImage)
    (img : PILImage) (angle : Int) : PILImage :=
  if angle ≠ 0 then (rotate img angle).getD img else img

/-! ### image_processor.py — strategy selection and orchestrator entry -/

/-- The strategy-selection step of `preprocess_uploaded_image`
(image_processor.py lines 344-416): given the contour trimmer's main image
and companion binary, the OCR trimmer's main image, the strategy string and
the oriented image, choose the main image and the intermediate binary.  The
source's five `elif` branches and the unknown-strategy `else` (treated like
`ocr_then_contour`) are translated in order; the final `is None` critical
fallback (lines 411-415) is the trailing match. -/
def selectMainImage (contourMain contourBinary ocrMain : Option PILImage)
    (strategy : String) (oriented : PILImage) : PILImage × Option PILImage :=
  let step : Option PILImage × Option PILImage :=
    if strategy = "ocr_then_contour" then
      match ocrMain, contourMain with
      | some o, _ => (some o, none)
      | none, some c => (some c, contourBinary)
      | none, none => (some oriented, none)
    else if strategy = "contour_then_ocr" then
      match contourMain, ocrMain with
      | some c, _ => (some c, contourBinary)
      | none, some o => (some o, none)
      | none, none => (some oriented, none)
    else if strategy = "ocr_only" then
      match ocrMain with
      | some o => (some o, none)
      | none => (some oriented, none)
    else if strategy = "contour_only" then
      match contourMain with
      | some c => (some c, contourBinary)
      | none => (some oriented, none)
    else if strategy = "none" then (some oriented, none)
    else  -- unknown strategy: fall back to ocr_then_contour behaviour (398-409)
      match ocrMain, contourMain with
      | some o, _ => (some o, none)
      | none, some c => (some c, contourBinary)
      | none, none => (some oriented, none)
  match step with
  | (none, _) => (oriented, none)  -- critical fallback, lines 411-415
  | (some m, b) => (m, b)

/-- Arbiter resolution modelled from the spec's words (§4.5 resolution
table): the chosen main image per strategy, with unknown strategy strings
treated as `ocr_then_contour` and absence of both results degrading to the
oriented image. -/
def selectTrimResultSpecMain (contourMain ocrMain : Option PILImage)
    (strategy : String) (oriented : PILImage) : PILImage :=
  if strategy = "ocr_then_contour" then ocrMain.getD (contourMain.getD oriented)
  else if strategy = "contour_then_ocr" then contourMain.getD (ocrMain.getD oriented)
  else if strategy = "ocr_only" then ocrMain.getD oriented
  else if strategy = "contour_only" then contourMain.getD oriented
  else if strategy = "none" then oriented
  else ocrMain.getD (contourMain.getD oriented)

/-- One entry of the `debug_images` list (a labelled intermediate image). -/
structure DebugFrame where
  label : String
  data : List UInt8
  mode : String
  size : Nat × Nat
deriving DecidableEq

/-- An encoded output image: `{"mime_type": ..., "data": ...}`. -/
structure EncodedImage where
  mimeType : String
  data : List UInt8
deriving DecidableEq

/-- The dictionary returned by `preprocess_uploaded_image`, with absent keys
modelled as `none`. -/
structure PreprocessResult where
  error : Option String
  debugImages : List DebugFrame
  processedImage : Option EncodedImage
  ocrInputImage : Option EncodedImage
  contourTrimmedImageData : Option (List UInt8)
  ocrTrimmedImageData : Option (List UInt8)
deriving DecidableEq

/-- Everything `preprocess_uploaded_image` does after the empty-input guard
(image_processor.py lines 157-572: MIME resolution, parameter resolution, the
decode/orient/trim/finish pipeline), abstracted as a single continuation that
receives the same arguments.  Claims about that region are settled on the
dedicated stage embeddings above. -/
structure PreprocessEnv where
  rest : List UInt8 → String → Option Int → Option String → Option Int →
    Option Bool → Option Bool → Option TrimParams → Option String →
    PreprocessResult

/-- Embedding of the entry of `preprocess_uploaded_image` (image_processor.py
lines 92-155): initialize the debug list, and if the uploaded byte string is
falsy (empty), return the error dictionary immediately — before the MIME type
or any other argument is consulted; otherwise hand off to the remainder of
the function. -/
def preprocessUploadedImage (env : PreprocessEnv) (uploadedFileData : List UInt8)
    (mimeType : String) (maxPixels : Option Int) (outputFormat : Option String)
    (jpegQuality : Option Int) (grayscale : Option Bool)
    (applyTrimmingOpencvOverride : Option Bool)
    (trimParamsOverride : Option TrimParams)
    (trimmingStrategyOverride : Option String) : PreprocessResult :=
  if uploadedFileData.isEmpty then
    { error := some "画像データが提供されていません。"
      debugImages := []
      processedImage := none
      ocrInputImage := none
      contourTrimmedImageData := none
      ocrTrimmedImageData := none }
  else
    env.rest uploadedFileData mimeType maxPixels outputFormat jpegQuality
      grayscale applyTrimmingOpencvOverride trimParamsOverride
      trimmingStrategyOverride

/-! ## Claim theorems -/

/-- Claim C1: for every combination of contour-trim result (present or null),
OCR-trim result (present or null) and strategy string (the five known values,
with any unknown string treated as `ocr_then_contour`), the strategy-selection
step of `preprocess_uploaded_image` chooses a (non-null, by totality of the
embedding) main image exactly as the §4.5 resolution table prescribes:
preferring the strategy's first-listed trimmer when its result is present,
falling back to the other trimmer when the strategy allows, and degrading to
the unmodified oriented image when no applicable result is present; the
selection is a total function and never raises. -/
theorem claim_C1_strategy_arbiter_resolution
    (contourMain contourBinary ocrMain : Option PILImage)
    (strategy : String) (oriented : PILImage) :
    (selectMainImage contourMain contourBinary ocrMain strategy oriented).1 =
      selectTrimResultSpecMain contourMain ocrMain strategy oriented := by
  cases ocrMain <;> cases contourMain <;>
    simp only [selectMainImage, selectTrimResultSpecMain] <;>
    split_ifs <;> simp

/-- Claim C8: the 90°-rotation arbitration between the projection-scoring
estimate and the OCR estimate: if both are non-zero and equal, that rotation
is applied once; if both are non-zero and they disagree, the
projection-scoring result is applied; if exactly one is non-zero, that one is
applied; if both are zero, no rotation is applied. -/
theorem claim_C8_rotation_arbitration (p o : Int)
    (rotate : PILImage → Int → Option PILImage) (img : PILImage) :
    (p ≠ 0 → o ≠ 0 → p = o → decideFinal90Rotation p o = p) ∧
    (p ≠ 0 → o ≠ 0 → p ≠ o → decideFinal90Rotation p o = p) ∧
    (p ≠ 0 → o = 0 → decideFinal90Rotation p o = p) ∧
    (p = 0 → o ≠ 0 → decideFinal90Rotation p o = o) ∧
    (p = 0 → o = 0 → decideFinal90Rotation p o = 0) ∧
    (∀ a : Int, a ≠ 0 →
      applyDecided90Rotation rotate img a = (rotate img a).getD img) ∧
    (applyDecided90Rotation rotate img 0 = img) := by
  unfold decideFinal90Rotation applyDecided90Rotation
  refine ⟨?_, ?_, ?_, ?_, ?_, ?_, ?_⟩ <;> intros <;> split_ifs <;> simp_all

/-- Witness for claim C8 at concrete estimates: disagreement 90 vs 180 picks
the projection result, and a zero projection estimate with OCR estimate 270
picks the OCR result. -/
theorem claim_C8_rotation_arbitration_witness :
    ((90 : Int) ≠ 0 ∧ (180 : Int) ≠ 0 ∧ (90 : Int) ≠ 180 ∧
      decideFinal90Rotation 90 180 = 90) ∧
    ((0 : Int) = 0 ∧ (270 : Int) ≠ 0 ∧ decideFinal90Rotation 0 270 = 270) :=
  ⟨⟨by decide, by decide, by decide,
      (claim_C8_rotation_arbitration 90 180 (fun i _ => some i) ⟨1, 1⟩).2.1
        (by decide) (by decide) (by decide)⟩,
    ⟨rfl, by decide,
      (claim_C8_rotation_arbitration 0 270 (fun i _ => some i) ⟨1, 1⟩).2.2.2.1
        rfl (by decide)⟩⟩

/-- Claim C9: the block size handed to the adaptive-threshold primitive is
always normalized to a nearest odd integer that is at least 3, and the
morphology kernel size to a nearest odd integer that is at least 1; with a
non-positive kernel size the morphology primitive is never invoked at all
(the call returns `none`).  In particular neither primitive ever runs with an
even or too-small size. -/
theorem claim_C9_size_normalization (b k cValue iterations : Int)
    (env : CvEnv) (img : CVImage) (op : MorphOp) :
    (Odd (normalizeAdaptiveBlockSize b) ∧ 3 ≤ normalizeAdaptiveBlockSize b ∧
      ∀ j : Int, Odd j → 3 ≤ j →
        |normalizeAdaptiveBlockSize b - b| ≤ |j - b|) ∧
    (applyAdaptiveThreshold env img b cValue =
      env.cvAdaptiveThreshold img (normalizeAdaptiveBlockSize b) cValue) ∧
    (1 ≤ k → Odd (normalizeMorphKernelSize k) ∧ 1 ≤ normalizeMorphKernelSize k ∧
      ∀ j : Int, Odd j → 1 ≤ j →
        |normalizeMorphKernelSize k - k| ≤ |j - k|) ∧
    (1 ≤ k → 1 ≤ iterations →
      applyMorphologicalOperation env img op k iterations =
        env.cvMorphologyEx img op (normalizeMorphKernelSize k) iterations) ∧
    (k < 1 → applyMorphologicalOperation env img op k iterations = none) := by
  refine ⟨?_, rfl, ?_, ?_, ?_⟩
  · unfold normalizeAdaptiveBlockSize
    by_cases hb : b < 3
    · rw [if_pos hb]
      norm_num
      refine ⟨by decide, ?_⟩
      intro j hj hj3
      rw [abs_of_nonneg (by omega), abs_of_nonneg (by omega)]
      omega
    · rw [if_neg hb]
      by_cases he : b % 2 = 0
      · rw [if_pos he]
        refine ⟨by rw [Int.odd_iff]; omega, by omega, ?_⟩
        intro j hj hj3
        rw [Int.odd_iff] at hj
        have hne : j ≠ b := by omega
        have h1 : |b + 1 - b| = 1 := by norm_num
        rw [h1]
        exact Int.one_le_abs (sub_ne_zero.mpr hne)
      · rw [if_neg he]
        refine ⟨by rw [Int.odd_iff]; omega, by omega, ?_⟩
        intro j _ _
        simp [abs_nonneg]
  · intro hk
    unfold normalizeMorphKernelSize
    by_cases he : k % 2 ≠ 0
    · rw [if_pos he]
      refine ⟨by rw [Int.odd_iff]; omega, hk, ?_⟩
      intro j _ _
      simp [abs_nonneg]
    · rw [if_neg he]
      refine ⟨by rw [Int.odd_iff]; omega, by omega, ?_⟩
      intro j hj hj1
      rw [Int.odd_iff] at hj
      have hne : j ≠ k := by omega
      have h1 : |k + 1 - k| = 1 := by norm_num
      rw [h1]
      exact Int.one_le_abs (sub_ne_zero.mpr hne)
  · intro hk hi
    unfold applyMorphologicalOperation
    have h1 : ¬ ¬ (0 < k) := by omega
    have h2 : ¬ ¬ (1 ≤ iterations) := by omega
    simp only [h1, h2, if_false]
  · intro hk
    unfold applyMorphologicalOperation
    have h1 : ¬ (0 < k) := by omega
    simp only [h1, not_false_iff, if_true]

/-- Helper environment used by witnesses: every primitive succeeds and
preserves the image, and no contours are found. -/
def idCvEnv : CvEnv where
  toGray := fun i => some { height := i.height, width := i.width }
  cvGaussianBlur := fun i _ => some i
  cvAdaptiveThreshold := fun i _ _ => some i
  cvMorphologyEx := fun i _ _ _ => some i
  findContours := fun _ => []

/-- Witness for claim C9 at concrete sizes: block size 4 normalizes to 5 and
kernel size 2 to 3, both odd and large enough; kernel size 0 never reaches
the primitive. -/
theorem claim_C9_size_normalization_witness :
    (Odd (normalizeAdaptiveBlockSize 4) ∧ 3 ≤ normalizeAdaptiveBlockSize 4) ∧
    ((1 : Int) ≤ 2 ∧ Odd (normalizeMorphKernelSize 2) ∧
      1 ≤ normalizeMorphKernelSize 2) ∧
    ((0 : Int) < 1 ∧
      applyMorphologicalOperation idCvEnv ⟨4, 4⟩ MorphOp.opening 0 1 = none) :=
  ⟨⟨(claim_C9_size_normalization 4 2 7 1 idCvEnv ⟨4, 4⟩ MorphOp.opening).1.1,
      (claim_C9_size_normalization 4 2 7 1 idCvEnv ⟨4, 4⟩ MorphOp.opening).1.2.1⟩,
    ⟨by decide,
      ((claim_C9_size_normalization 4 2 7 1 idCvEnv ⟨4, 4⟩ MorphOp.opening).2.2.1
        (by decide)).1,
      ((claim_C9_size_normalization 4 2 7 1 idCvEnv ⟨4, 4⟩ MorphOp.opening).2.2.1
        (by decide)).2.1⟩,
    ⟨by decide,
      (claim_C9_size_normalization 4 0 7 1 idCvEnv ⟨4, 4⟩ MorphOp.opening).2.2.2.2
        (by decide)⟩⟩

/-- Claim C10: for the empty byte string as uploaded image data,
`preprocess_uploaded_image` returns an error descriptor (error field set,
debug-frame list empty) without raising, for every declared MIME type and
every other argument (so the MIME type is never consulted), and with no
display, OCR or per-strategy image fields produced. -/
theorem claim_C10_empty_input_error (env : PreprocessEnv) (mimeType : String)
    (maxPixels : Option Int) (outputFormat : Option String)
    (jpegQuality : Option Int) (grayscale : Option Bool)
    (applyTrimmingOpencvOverride : Option Bool)
    (trimParamsOverride : Option TrimParams)
    (trimmingStrategyOverride : Option String) :
    preprocessUploadedImage env [] mimeType maxPixels outputFormat jpegQuality
        grayscale applyTrimmingOpencvOverride trimParamsOverride
        trimmingStrategyOverride =
      { error := some "画像データが提供されていません。"
        debugImages := []
        processedImage := none
        ocrInputImage := none
        contourTrimmedImageData := none
        ocrTrimmedImageData := none } := rfl

/-- Counterexample to claim C2: in a run where `cv2.findContours` finds no
contours at all (hence zero components survive the area filter), the claim
asserts `trim_image_by_contours` returns null for the main image; the code
instead returns the unmodified input image (contour_trimmers.py lines
162-164).  Concretely, on a 10×8 image with default parameters and an
environment whose contour search returns the empty list, the main image
returned is `some` of the input, not `none`. -/
theorem claim_C2_counterexample :
    idCvEnv.findContours { height := 8, width := 10 } = [] ∧
    trimByContours idCvEnv { width := 10, height := 8 } {} =
      (some { width := 10, height := 8 }, none) ∧
    (trimByContours idCvEnv { width := 10, height := 8 } {}).1 ≠ none := by
  refine ⟨rfl, by decide, by decide⟩

/-- Claim C2 as amended: when zero connected components survive the area
filter (or no contours are found at all), `trim_image_by_contours` returns
the unmodified oriented image as the main image and null as the binary
companion — exactly the same degraded result as an internal stage failure
(gray-conversion failure, threshold failure); a null main image is never
produced on these paths. -/
theorem claim_C2_zero_survivors_return_original (env : CvEnv) (img : PILImage)
    (p : TrimParams) :
    (env.toGray img = none → trimByContours env img p = (some img, none)) ∧
    (∀ gray, env.toGray img = some gray → contourBinaryStage env gray p = none →
      trimByContours env img p = (some img, none)) ∧
    (∀ gray bin, env.toGray img = some gray →
      contourBinaryStage env gray p = some bin →
      validContours (env.findContours bin)
        (minAbsoluteArea gray.width gray.height p.minContourAreaRatio) = [] →
      trimByContours env img p = (some img, none)) := by
  refine ⟨?_, ?_, ?_⟩
  · intro h
    simp only [trimByContours, h]
  · intro gray hg hb
    simp only [trimByContours, hg, trimByContoursFromGray, hb]
  · intro gray bin hg hb hv
    simp only [trimByContours, hg, trimByContoursFromGray, hb]
    by_cases hc : (env.findContours bin).isEmpty <;>
      simp [hc, hv]

/-- Helper environment whose contour search returns a single component that
is far below any positive area floor. -/
def smallContourEnv : CvEnv where
  toGray := fun i => some { height := i.height, width := i.width }
  cvGaussianBlur := fun i _ => some i
  cvAdaptiveThreshold := fun i _ _ => some i
  cvMorphologyEx := fun i _ _ _ => some i
  findContours := fun _ => [{ area := 0, rect := { x := 1, y := 1, w := 1, h := 1 } }]

/-- Witness for the amended claim C2: a 10×8 image whose only contour has
area 0 (below the default floor of 80/20000) makes the area filter empty, and
the trimmer returns the unmodified image with no binary companion. -/
theorem claim_C2_zero_survivors_return_original_witness :
    smallContourEnv.toGray { width := 10, height := 8 } =
      some { height := 8, width := 10 } ∧
    contourBinaryStage smallContourEnv { height := 8, width := 10 } {} =
      some { height := 8, width := 10 } ∧
    validContours (smallContourEnv.findContours { height := 8, width := 10 })
      (minAbsoluteArea 10 8 ({} : TrimParams).minContourAreaRatio) = [] ∧
    trimByContours smallContourEnv { width := 10, height := 8 } {} =
      (some { width := 10, height := 8 }, none) := by
  have hvalid : validContours
      (smallContourEnv.findContours { height := 8, width := 10 })
      (minAbsoluteArea 10 8 ({} : TrimParams).minContourAreaRatio) = [] := by
    simp only [smallContourEnv]
    rw [validContours, List.filter_cons, List.filter_nil]
    norm_num [minAbsoluteArea]
  refine ⟨rfl, by decide, hvalid, ?_⟩
  exact (claim_C2_zero_survivors_return_original smallContourEnv
      { width := 10, height := 8 } {}).2.2
    { height := 8, width := 10 } { height := 8, width := 10 }
    rfl (by decide) hvalid

/-- Claim C4: for every configured area ratio `r` and image dimensions, a
contour is kept by the area filter iff its area is at least the floor
`W·H·r` (so components at or above the floor are all kept), and inserting a
component whose area is strictly below the floor changes neither the filtered
list nor the union-bounding-box crop window the trimmer computes from it. -/
theorem claim_C4_area_filter (contours : List Contour) (c : Contour)
    (W H : Nat) (r : Rat) (padding : Int) :
    (c ∈ validContours contours (minAbsoluteArea W H r) ↔
      c ∈ contours ∧ minAbsoluteArea W H r ≤ c.area) ∧
    (c.area < minAbsoluteArea W H r →
      validContours (c :: contours) (minAbsoluteArea W H r) =
        validContours contours (minAbsoluteArea W H r) ∧
      contourCropRegion W H padding
          (validContours (c :: contours) (minAbsoluteArea W H r)) =
        contourCropRegion W H padding
          (validContours contours (minAbsoluteArea W H r))) := by
  constructor
  · simp [validContours, List.mem_filter]
  · intro hlt
    have hfilter : validContours (c :: contours) (minAbsoluteArea W H r) =
        validContours contours (minAbsoluteArea W H r) := by
      simp [validContours, List.filter_cons, not_le.mpr hlt]
    exact ⟨hfilter, by rw [hfilter]⟩

/-- Witness for claim C4: with a 10×8 image and ratio 1/80 the floor is 1; a
component of area 1/2 is dropped and leaves the filter output and the crop
window over a surviving area-2 component unchanged. -/
theorem claim_C4_area_filter_witness :
    (({ area := 1/2, rect := { x := 0, y := 0, w := 1, h := 1 } } : Contour).area <
      minAbsoluteArea 10 8 (1/80)) ∧
    (validContours
        ({ area := 1/2, rect := { x := 0, y := 0, w := 1, h := 1 } } ::
          [{ area := 2, rect := { x := 1, y := 1, w := 3, h := 2 } }])
        (minAbsoluteArea 10 8 (1/80)) =
      validContours [{ area := 2, rect := { x := 1, y := 1, w := 3, h := 2 } }]
        (minAbsoluteArea 10 8 (1/80)) ∧
    contourCropRegion 10 8 0
        (validContours
          ({ area := 1/2, rect := { x := 0, y := 0, w := 1, h := 1 } } ::
            [{ area := 2, rect := { x := 1, y := 1, w := 3, h := 2 } }])
          (minAbsoluteArea 10 8 (1/80))) =
      contourCropRegion 10 8 0
        (validContours [{ area := 2, rect := { x := 1, y := 1, w := 3, h := 2 } }]
          (minAbsoluteArea 10 8 (1/80)))) := by
  have hlt : ({ area := 1/2, rect := { x := 0, y := 0, w := 1, h := 1 } } :
      Contour).area < minAbsoluteArea 10 8 (1/80) := by
    norm_num [minAbsoluteArea]
  exact ⟨hlt,
    (claim_C4_area_filter
        [{ area := 2, rect := { x := 1, y := 1, w := 3, h := 2 } }]
        { area := 1/2, rect := { x := 0, y := 0, w := 1, h := 1 } }
        10 8 (1/80) 0).2 hlt⟩

theorem applyGaussianBlur_getD_dims {env : CvEnv} (hdims : env.preservesDims)
    (gray : CVImage) (k : Int × Int) :
    ((applyGaussianBlur env gray k).getD gray).height = gray.height ∧
    ((applyGaussianBlur env gray k).getD gray).width = gray.width := by
  obtain ⟨hblur, -, -⟩ := hdims
  unfold applyGaussianBlur
  split_ifs
  · cases hres : env.cvGaussianBlur gray k with
    | none => simp [hres]
    | some r => simpa [hres] using hblur _ _ _ hres
  · simp
  · simp

theorem applyMorph_getD_dims {env : CvEnv} (hdims : env.preservesDims)
    (i : CVImage) (op : MorphOp) (k n : Int) :
    ((applyMorphologicalOperation env i op k n).getD i).height = i.height ∧
    ((applyMorphologicalOperation env i op k n).getD i).width = i.width := by
  obtain ⟨-, -, hmorph⟩ := hdims
  unfold applyMorphologicalOperation
  split_ifs
  · cases hres : env.cvMorphologyEx i op (normalizeMorphKernelSize k) n with
    | none => simp [hres]
    | some r => exact hmorph _ _ _ _ _ hres
  · exact ⟨rfl, rfl⟩
  · exact ⟨rfl, rfl⟩

theorem contourBinaryStage_dims {env : CvEnv} (hdims : env.preservesDims)
    {gray bin : CVImage} {p : TrimParams}
    (h : contourBinaryStage env gray p = some bin) :
    bin.height = gray.height ∧ bin.width = gray.width := by
  obtain ⟨hbh, hbw⟩ := applyGaussianBlur_getD_dims hdims gray p.gaussianBlurKernel
  simp only [contourBinaryStage] at h
  revert h
  cases hth : applyAdaptiveThreshold env
      ((applyGaussianBlur env gray p.gaussianBlurKernel).getD gray)
      p.adaptiveThreshBlockSize p.adaptiveThreshC with
  | none => intro h; cases h
  | some thresh =>
    intro h
    have hthd : thresh.height = gray.height ∧ thresh.width = gray.width := by
      obtain ⟨-, hthresh, -⟩ := hdims
      have := hthresh _ _ _ _ (by simpa [applyAdaptiveThreshold] using hth)
      exact ⟨this.1.trans hbh, this.2.trans hbw⟩
    obtain rfl : bin = _ := (Option.some.inj h).symm
    by_cases ho : p.morphOpenApply <;> by_cases hc : p.morphCloseApply <;>
      simp only [ho, hc, if_true, if_false, ite_true, ite_false]
    · obtain ⟨h1, h2⟩ := applyMorph_getD_dims hdims thresh MorphOp.opening
        p.morphOpenKernelSize p.morphOpenIterations
      obtain ⟨h3, h4⟩ := applyMorph_getD_dims hdims
        ((applyMorphologicalOperation env thresh MorphOp.opening
          p.morphOpenKernelSize p.morphOpenIterations).getD thresh) MorphOp.closing
        p.morphCloseKernelSize p.morphCloseIterations
      exact ⟨h3.trans (h1.trans hthd.1), h4.trans (h2.trans hthd.2)⟩
    · obtain ⟨h1, h2⟩ := applyMorph_getD_dims hdims thresh MorphOp.opening
        p.morphOpenKernelSize p.morphOpenIterations
      exact ⟨h1.trans hthd.1, h2.trans hthd.2⟩
    · obtain ⟨h3, h4⟩ := applyMorph_getD_dims hdims thresh MorphOp.closing
        p.morphCloseKernelSize p.morphCloseIterations
      exact ⟨h3.trans hthd.1, h4.trans hthd.2⟩
    · exact hthd

theorem contourCropRegion_bounds {W H : Nat} {padding : Int}
    {valid : List Contour} {x1 y1 x2 y2 : Int}
    (h : contourCropRegion W H padding valid = some (x1, y1, x2, y2)) :
    0 ≤ x1 ∧ 0 ≤ y1 ∧ x1 < x2 ∧ y1 < y2 ∧ x2 ≤ (W : Int) ∧ y2 ≤ (H : Int) := by
  unfold contourCropRegion at h
  revert h
  cases listMin (contourXCoords valid) with
  | none => intro h; cases h
  | some xmin =>
    cases listMax (contourXCoords valid) with
    | none => intro h; cases h
    | some xmax =>
      cases listMin (contourYCoords valid) with
      | none => intro h; cases h
      | some ymin =>
        cases listMax (contourYCoords valid) with
        | none => intro h; cases h
        | some ymax =>
          intro h
          simp only at h
          split_ifs at h with hcond
          push_neg at hcond
          simp only [Option.some.injEq, Prod.mk.injEq] at h
          obtain ⟨rfl, rfl, rfl, rfl⟩ := h
          exact ⟨le_max_left _ _, le_max_left _ _, hcond.1, hcond.2,
            min_le_left _ _, min_le_left _ _⟩

/-- Claim C6: whenever the contour trimmer returns both a main cropped image
and a companion binarized crop, the two are cut to the same pixel window (the
main crop from the oriented image, the binary crop from the pre-contour-
detection binary image), so — with the cv2 primitives preserving array
dimensions — the companion crop's width and height exactly equal the main
crop's width and height. -/
theorem claim_C6_companion_crop_alignment (env : CvEnv) (img : PILImage)
    (p : TrimParams) (m b : PILImage) (hdims : env.preservesDims)
    (hrun : trimByContours env img p = (some m, some b)) :
    m.width = b.width ∧ m.height = b.height := by
  rcases hg : env.toGray img with _ | gray
  · simp only [trimByContours, hg] at hrun
    simp at hrun
  · simp only [trimByContours, hg] at hrun
    rcases hbs : contourBinaryStage env gray p with _ | bin
    · simp only [trimByContoursFromGray, hbs] at hrun
      simp at hrun
    · simp only [trimByContoursFromGray, hbs] at hrun
      obtain ⟨hbinh, hbinw⟩ := contourBinaryStage_dims hdims hbs
      split_ifs at hrun with hc hv
      · simp at hrun
      · simp at hrun
      · rcases hreg : contourCropRegion gray.width gray.height p.padding
            (validContours (env.findContours bin)
              (minAbsoluteArea gray.width gray.height p.minContourAreaRatio))
          with _ | ⟨x1, y1, x2, y2⟩
        · simp only [hreg] at hrun
          simp at hrun
        · simp only [hreg] at hrun
          obtain ⟨hx1, hy1, hxx, hyy, hx2, hy2⟩ := contourCropRegion_bounds hreg
          have hsw : (npSliceDims bin y1 y2 x1 x2).width = (x2 - x1).toNat := by
            simp only [npSliceDims]
            rw [hbinw, min_eq_left hx2, min_eq_left (by omega)]
          have hsh : (npSliceDims bin y1 y2 x1 x2).height = (y2 - y1).toNat := by
            simp only [npSliceDims]
            rw [hbinh, min_eq_left hy2, min_eq_left (by omega)]
          split_ifs at hrun
          · simp only [Prod.mk.injEq, Option.some.injEq] at hrun
            obtain ⟨rfl, rfl⟩ := hrun
            exact ⟨by simp [pilCrop, hsw], by simp [pilCrop, hsh]⟩
          · simp only [Prod.mk.injEq, Option.some.injEq] at hrun
            obtain ⟨rfl, rfl⟩ := hrun
            exact ⟨rfl, rfl⟩

/-- Helper environment whose contour search reports one solid component with
bounding rectangle (1, 1, 3, 2). -/
def oneContourEnv : CvEnv where
  toGray := fun i => some { height := i.height, width := i.width }
  cvGaussianBlur := fun i _ => some i
  cvAdaptiveThreshold := fun i _ _ => some i
  cvMorphologyEx := fun i _ _ _ => some i
  findContours := fun _ => [{ area := 50, rect := { x := 1, y := 1, w := 3, h := 2 } }]

theorem oneContourEnv_preservesDims : oneContourEnv.preservesDims := by
  refine ⟨?_, ?_, ?_⟩ <;> intros <;> simp_all [oneContourEnv]

/-- Witness for claim C6: a 10×8 image with one accepted component crops to a
3×2 main image and a 3×2 binary companion, and the theorem yields the
dimension equalities. -/
theorem claim_C6_companion_crop_alignment_witness :
    oneContourEnv.preservesDims ∧
    trimByContours oneContourEnv { width := 10, height := 8 } {} =
      (some { width := 3, height := 2 }, some { width := 3, height := 2 }) ∧
    (PILImage.mk 3 2).width = (PILImage.mk 3 2).width ∧
    (PILImage.mk 3 2).height = (PILImage.mk 3 2).height := by
  have hvalid : validContours
      [{ area := 50, rect := { x := 1, y := 1, w := 3, h := 2 } }]
      (minAbsoluteArea 10 8 (1 / 20000)) =
      [{ area := 50, rect := { x := 1, y := 1, w := 3, h := 2 } }] := by
    rw [validContours, List.filter_cons, List.filter_nil]
    norm_num [minAbsoluteArea]
  have hrun : trimByContours oneContourEnv { width := 10, height := 8 } {} =
      (some { width := 3, height := 2 }, some { width := 3, height := 2 }) := by
    simp only [trimByContours, trimByContoursFromGray, oneContourEnv,
      contourBinaryStage, applyGaussianBlur, applyAdaptiveThreshold]
    norm_num [hvalid, contourCropRegion, contourXCoords, contourYCoords,
      listMin, listMax, npSliceDims, pilCrop, pilConvertL]
    decide
  exact ⟨oneContourEnv_preservesDims, hrun,
    claim_C6_companion_crop_alignment oneContourEnv { width := 10, height := 8 }
      {} { width := 3, height := 2 } { width := 3, height := 2 }
      oneContourEnv_preservesDims hrun⟩

theorem le_pyTruncToInt_iff {q : Rat} {m : Int} (h : 0 ≤ q ∨ q.den = 1) :
    m ≤ pyTruncToInt q ↔ (m : Rat) ≤ q := by
  rcases h with hq | hq
  · rw [pyTruncToInt, if_pos hq]
    exact Int.le_floor
  · have hnum : (q.num : Rat) = q := Rat.coe_int_num_of_den_eq_one hq
    rw [pyTruncToInt, ← hnum]
    split_ifs <;>
      simp [Int.floor_intCast, Int.ceil_intCast]

theorem ocrBoxAccepted_iff (imgW imgH : Nat) (p : OcrTrimParams) (b : OcrBox)
    (hlevel : b.level = 5) (hconf : 0 ≤ b.conf ∨ b.conf.den = 1)
    (hminw : 1 ≤ p.minBoxWidth) (hminh : 1 ≤ p.minBoxHeight) :
    ocrBoxAccepted imgW imgH p b = true ↔ ocrBoxValidSpec imgW imgH p b := by
  unfold ocrBoxAccepted
  by_cases hA : b.level = 5 ∧ b.text.trim ≠ "" ∧
      p.minConfidence ≤ pyTruncToInt b.conf
  · rw [if_neg (not_not_intro hA)]
    by_cases hB : 0 < b.width ∧ 0 < b.height
    · rw [if_neg (not_not_intro hB)]
      by_cases hC : b.width < p.minBoxWidth ∨ b.height < p.minBoxHeight
      · rw [if_pos hC]
        simp only [Bool.false_eq_true, false_iff]
        intro hspec
        obtain ⟨-, -, hw, hh, -⟩ := hspec
        omega
      · rw [if_neg hC]
        by_cases hD : (imgH : Rat) * p.maxBoxHeightRatio < (b.height : Rat) ∨
            (imgW : Rat) * p.maxBoxWidthRatio < (b.width : Rat)
        · rw [if_pos hD]
          simp only [Bool.false_eq_true, false_iff]
          intro hspec
          obtain ⟨-, -, -, -, hwr, hhr, -⟩ := hspec
          rcases hD with hD | hD
          · exact absurd hD (not_lt.mpr hhr)
          · exact absurd hD (not_lt.mpr hwr)
        · rw [if_neg hD]
          by_cases hE : p.minAspectRatio ≤ (b.width : Rat) / (b.height : Rat) ∧
              (b.width : Rat) / (b.height : Rat) ≤ p.maxAspectRatio
          · rw [if_neg (not_not_intro hE)]
            simp only [true_iff]
            push_neg at hC hD
            exact ⟨(le_pyTruncToInt_iff hconf).mp hA.2.2, hA.2.1, hC.1, hC.2,
              hD.2, hD.1, hE.1, hE.2⟩
          · rw [if_pos hE]
            simp only [Bool.false_eq_true, false_iff]
            intro hspec
            obtain ⟨-, -, -, -, -, -, hlo, hhi⟩ := hspec
            exact hE ⟨hlo, hhi⟩
    · rw [if_pos hB]
      simp only [Bool.false_eq_true, false_iff]
      intro hspec
      obtain ⟨-, -, hw, hh, -⟩ := hspec
      exact hB ⟨by omega, by omega⟩
  · rw [if_pos hA]
    simp only [Bool.false_eq_true, false_iff]
    intro hspec
    exact hA ⟨hlevel, hspec.2.1, (le_pyTruncToInt_iff hconf).mpr hspec.1⟩

/-- Claim C5: in the OCR-box-based trimmer, a detected word-level box (level
5, with a confidence value that is non-negative or integral, as tesseract
produces, and with positive configured pixel floors) contributes to the union
bounding box if and only if its confidence is at least minConfidence, its
text is non-blank, its width and height meet the absolute floors, its width
and height are within the relative ceilings, and its aspect ratio lies within
[minAspectRatio, maxAspectRatio]; every box failing any of these tests is
excluded. -/
theorem claim_C5_ocr_box_validity (imgW imgH : Nat) (p : OcrTrimParams)
    (boxes : List OcrBox) (b : OcrBox)
    (hlevel : b.level = 5) (hconf : 0 ≤ b.conf ∨ b.conf.den = 1)
    (hminw : 1 ≤ p.minBoxWidth) (hminh : 1 ≤ p.minBoxHeight) :
    b ∈ ocrValidBoxes imgW imgH p boxes ↔
      b ∈ boxes ∧ ocrBoxValidSpec imgW imgH p b := by
  rw [ocrValidBoxes, List.mem_filter,
    ocrBoxAccepted_iff imgW imgH p b hlevel hconf hminw hminh]

/-- A concrete detected word box used by witnesses: level 5, text "ab",
confidence 90, geometry (10, 10, 20, 10). -/
def sampleOcrBox : OcrBox :=
  { level := 5, text := "ab", conf := 90, left := 10, top := 10,
    width := 20, height := 10 }

/-- Witness for claim C5: on a 100×100 image with the default parameters, the
sample box is accepted and satisfies the spec-side validity predicate. -/
theorem claim_C5_ocr_box_validity_witness :
    sampleOcrBox.level = 5 ∧
    (0 ≤ sampleOcrBox.conf ∨ sampleOcrBox.conf.den = 1) ∧
    (1 ≤ ({} : OcrTrimParams).minBoxWidth) ∧
    (1 ≤ ({} : OcrTrimParams).minBoxHeight) ∧
    (sampleOcrBox ∈ ocrValidBoxes 100 100 {} [sampleOcrBox] ↔
      sampleOcrBox ∈ [sampleOcrBox] ∧ ocrBoxValidSpec 100 100 {} sampleOcrBox) :=
  ⟨rfl, Or.inl (by norm_num [sampleOcrBox]), by norm_num, by norm_num,
    claim_C5_ocr_box_validity 100 100 {} [sampleOcrBox] sampleOcrBox
      rfl (Or.inl (by norm_num [sampleOcrBox])) (by norm_num) (by norm_num)⟩

theorem nat_le_of_sq_le_sq {x y : Nat} (h : x ^ 2 ≤ y ^ 2) : x ≤ y := by
  by_contra hxy
  push_neg at hxy
  nlinarith

theorem nat_lt_of_sq_lt_sq {x y : Nat} (h : x ^ 2 < y ^ 2) : x < y := by
  by_contra hxy
  push_neg at hxy
  nlinarith

theorem nat_lt_div_succ_mul (a c : Nat) (hc : 0 < c) : a < (a / c + 1) * c := by
  have h1 := Nat.div_add_mod a c
  have h2 := Nat.mod_lt a hc
  calc a = c * (a / c) + a % c := h1.symm
    _ < c * (a / c) + c := by omega
    _ = (a / c + 1) * c := by ring

/-- Claim C7: for every image and every positive pixel budget: if the image
already meets the budget the resize step returns it with unchanged
dimensions; if it exceeds the budget, both dimensions are scaled by
sqrt(maxPixels / currentPixels) — each new dimension is the floor of the
ideally scaled one, stated square-free as `nw² · c ≤ w² · m < (nw+1)² · c` —
so the output satisfies `newWidth · newHeight ≤ maxPixels` and preserves the
aspect ratio to within rounding error (the cross products `nh·w` and `nw·h`
differ by less than one rounding step), except that the resize is skipped
(dimensions unchanged) when a resulting dimension would be below 1 pixel. -/
theorem claim_C7_resize_pixel_budget (img : PILImage) (m : Int) (nw nh : Nat)
    (hm : 0 < m)
    (hnw : nw = Nat.sqrt (img.width ^ 2 * m.toNat / (img.width * img.height)))
    (hnh : nh = Nat.sqrt (img.height ^ 2 * m.toNat / (img.width * img.height))) :
    ((img.width * img.height : Int) ≤ m → resizeImagePillow img (some m) = img) ∧
    (m < (img.width * img.height : Int) →
      ((1 ≤ nw ∧ 1 ≤ nh →
          resizeImagePillow img (some m) = { width := nw, height := nh } ∧
          nw * nh ≤ m.toNat ∧
          nw ^ 2 * (img.width * img.height) ≤ img.width ^ 2 * m.toNat ∧
          img.width ^ 2 * m.toNat < (nw + 1) ^ 2 * (img.width * img.height) ∧
          nh ^ 2 * (img.width * img.height) ≤ img.height ^ 2 * m.toNat ∧
          img.height ^ 2 * m.toNat < (nh + 1) ^ 2 * (img.width * img.height) ∧
          nh * img.width < (nw + 1) * img.height ∧
          nw * img.height < (nh + 1) * img.width) ∧
        ((nw = 0 ∨ nh = 0) → resizeImagePillow img (some m) = img))) := by
  obtain ⟨w, h⟩ := img
  simp only at hnw hnh ⊢
  constructor
  · intro hle
    simp only [resizeImagePillow]
    rw [if_neg (by omega), if_neg (by omega)]
  · intro hgt
    have hc0 : 0 < w * h := by omega
    have hmn0 : 0 < m.toNat := by omega
    have hmnc : m.toNat < w * h := by omega
    have hw0 : 0 < w := by
      rcases Nat.eq_zero_or_pos w with h0 | h0
      · rw [h0, Nat.zero_mul] at hc0; omega
      · exact h0
    have hh0 : 0 < h := by
      rcases Nat.eq_zero_or_pos h with h0 | h0
      · rw [h0, Nat.mul_zero] at hc0; omega
      · exact h0
    -- square-free floor characterization for each dimension
    have hloww : nw ^ 2 * (w * h) ≤ w ^ 2 * m.toNat := by
      have f1 : nw ^ 2 ≤ w ^ 2 * m.toNat / (w * h) := hnw ▸ Nat.sqrt_le' _
      exact le_trans (Nat.mul_le_mul_right _ f1) (Nat.div_mul_le_self _ _)
    have hhighw : w ^ 2 * m.toNat < (nw + 1) ^ 2 * (w * h) := by
      have f4 : w ^ 2 * m.toNat / (w * h) < (nw + 1) ^ 2 := hnw ▸ Nat.lt_succ_sqrt' _
      exact lt_of_lt_of_le (nat_lt_div_succ_mul _ _ hc0)
        (Nat.mul_le_mul_right _ (by omega))
    have hlowh : nh ^ 2 * (w * h) ≤ h ^ 2 * m.toNat := by
      have f1 : nh ^ 2 ≤ h ^ 2 * m.toNat / (w * h) := hnh ▸ Nat.sqrt_le' _
      exact le_trans (Nat.mul_le_mul_right _ f1) (Nat.div_mul_le_self _ _)
    have hhighh : h ^ 2 * m.toNat < (nh + 1) ^ 2 * (w * h) := by
      have f4 : h ^ 2 * m.toNat / (w * h) < (nh + 1) ^ 2 := hnh ▸ Nat.lt_succ_sqrt' _
      exact lt_of_lt_of_le (nat_lt_div_succ_mul _ _ hc0)
        (Nat.mul_le_mul_right _ (by omega))
    have hprod : nw * nh ≤ m.toNat := by
      apply nat_le_of_sq_le_sq
      have h1 : (nw * nh) ^ 2 * ((w * h) * (w * h)) ≤
          m.toNat ^ 2 * ((w * h) * (w * h)) := by
        calc (nw * nh) ^ 2 * ((w * h) * (w * h))
            = (nw ^ 2 * (w * h)) * (nh ^ 2 * (w * h)) := by ring
          _ ≤ (w ^ 2 * m.toNat) * (h ^ 2 * m.toNat) := Nat.mul_le_mul hloww hlowh
          _ = m.toNat ^ 2 * ((w * h) * (w * h)) := by ring
      exact Nat.le_of_mul_le_mul_right h1 (by positivity)
    have hcross1 : nh * w < (nw + 1) * h := by
      apply nat_lt_of_sq_lt_sq
      have h5 : (nh * w) ^ 2 * (w * h) < ((nw + 1) * h) ^ 2 * (w * h) := by
        calc (nh * w) ^ 2 * (w * h) = (nh ^ 2 * (w * h)) * w ^ 2 := by ring
          _ ≤ (h ^ 2 * m.toNat) * w ^ 2 := Nat.mul_le_mul_right _ hlowh
          _ = (w ^ 2 * m.toNat) * h ^ 2 := by ring
          _ < ((nw + 1) ^ 2 * (w * h)) * h ^ 2 :=
              (Nat.mul_lt_mul_right (by positivity)).mpr hhighw
          _ = ((nw + 1) * h) ^ 2 * (w * h) := by ring
      exact Nat.lt_of_mul_lt_mul_right h5
    have hcross2 : nw * h < (nh + 1) * w := by
      apply nat_lt_of_sq_lt_sq
      have h5 : (nw * h) ^ 2 * (w * h) < ((nh + 1) * w) ^ 2 * (w * h) := by
        calc (nw * h) ^ 2 * (w * h) = (nw ^ 2 * (w * h)) * h ^ 2 := by ring
          _ ≤ (w ^ 2 * m.toNat) * h ^ 2 := Nat.mul_le_mul_right _ hloww
          _ = (h ^ 2 * m.toNat) * w ^ 2 := by ring
          _ < ((nh + 1) ^ 2 * (w * h)) * w ^ 2 :=
              (Nat.mul_lt_mul_right (by positivity)).mpr hhighh
          _ = ((nh + 1) * w) ^ 2 * (w * h) := by ring
      exact Nat.lt_of_mul_lt_mul_right h5
    constructor
    · intro ⟨h1w, h1h⟩
      refine ⟨?_, hprod, hloww, hhighw, hlowh, hhighh, hcross1, hcross2⟩
      simp only [resizeImagePillow]
      rw [if_neg (by omega), if_pos (by omega)]
      rw [if_pos (by rw [← hnw, ← hnh]; exact ⟨h1w, h1h⟩)]
      rw [← hnw, ← hnh]
    · intro hz
      simp only [resizeImagePillow]
      rw [if_neg (by omega), if_pos (by omega)]
      rw [if_neg (by rw [← hnw, ← hnh]; omega)]

/-- Witness for claim C7: a 4×2 image against a budget of 2 pixels is scaled
to 2×1, meeting the budget exactly and preserving the 2:1 aspect ratio. -/
theorem claim_C7_resize_pixel_budget_witness :
    (0 : Int) < 2 ∧
    (2 : Int) < ((PILImage.mk 4 2).width * (PILImage.mk 4 2).height : Int) ∧
    (1 ≤ (2 : Nat) ∧ 1 ≤ (1 : Nat)) ∧
    (resizeImagePillow (PILImage.mk 4 2) (some 2) = PILImage.mk 2 1 ∧
      2 * 1 ≤ (2 : Int).toNat ∧
      2 ^ 2 * ((PILImage.mk 4 2).width * (PILImage.mk 4 2).height) ≤
        (PILImage.mk 4 2).width ^ 2 * (2 : Int).toNat ∧
      (PILImage.mk 4 2).width ^ 2 * (2 : Int).toNat <
        (2 + 1) ^ 2 * ((PILImage.mk 4 2).width * (PILImage.mk 4 2).height) ∧
      1 ^ 2 * ((PILImage.mk 4 2).width * (PILImage.mk 4 2).height) ≤
        (PILImage.mk 4 2).height ^ 2 * (2 : Int).toNat ∧
      (PILImage.mk 4 2).height ^ 2 * (2 : Int).toNat <
        (1 + 1) ^ 2 * ((PILImage.mk 4 2).width * (PILImage.mk 4 2).height) ∧
      1 * (PILImage.mk 4 2).width < (2 + 1) * (PILImage.mk 4 2).height ∧
      2 * (PILImage.mk 4 2).height < (1 + 1) * (PILImage.mk 4 2).width) := by
  have hs4 : Nat.sqrt 4 = 2 :=
    Nat.le_antisymm (Nat.le_of_lt_succ (Nat.sqrt_lt.mpr (by norm_num)))
      (Nat.le_sqrt.mpr (by norm_num))
  have ht2 : (2 : Int).toNat = 2 := rfl
  have hnw : (2 : Nat) = Nat.sqrt ((PILImage.mk 4 2).width ^ 2 * (2 : Int).toNat /
      ((PILImage.mk 4 2).width * (PILImage.mk 4 2).height)) := by
    norm_num [ht2, hs4]
  have hnh : (1 : Nat) = Nat.sqrt ((PILImage.mk 4 2).height ^ 2 * (2 : Int).toNat /
      ((PILImage.mk 4 2).width * (PILImage.mk 4 2).height)) := by
    norm_num [ht2, Nat.sqrt_one]
  refine ⟨by decide, by decide, ⟨by decide, by decide⟩, ?_⟩
  exact ((claim_C7_resize_pixel_budget (PILImage.mk 4 2) 2 2 1 (by decide)
    hnw hnh).2 (by decide)).1 ⟨by decide, by decide⟩

theorem listMin_cons (a : Int) (l : List Int) :
    listMin (a :: l) = some ((listMin l).elim a (min a)) := by
  cases h : listMin l <;> simp [listMin, h]

theorem listMax_cons (a : Int) (l : List Int) :
    listMax (a :: l) = some ((listMax l).elim a (max a)) := by
  cases h : listMax l <;> simp [listMax, h]

theorem listMin_flatMap_pair (f g : Contour → Int) :
    ∀ (cs : List Contour), (∀ c ∈ cs, f c ≤ g c) →
      listMin (cs.flatMap fun c => [f c, g c]) = listMin (cs.map f) := by
  intro cs
  induction cs with
  | nil => intro _; rfl
  | cons c rest ih =>
    intro hfg
    have hc : f c ≤ g c := hfg c (List.mem_cons_self _ _)
    have hrest := ih (fun x hx => hfg x (List.mem_cons_of_mem _ hx))
    rw [show (c :: rest).flatMap (fun c => [f c, g c]) =
        f c :: g c :: rest.flatMap (fun c => [f c, g c]) from by simp,
      List.map_cons, listMin_cons, listMin_cons, listMin_cons, hrest]
    cases hL : listMin (rest.map f) with
    | none => simp [min_eq_left hc]
    | some mr => simp [← min_assoc, min_eq_left hc]

theorem listMax_flatMap_pair (f g : Contour → Int) :
    ∀ (cs : List Contour), (∀ c ∈ cs, f c ≤ g c) →
      listMax (cs.flatMap fun c => [f c, g c]) = listMax (cs.map g) := by
  intro cs
  induction cs with
  | nil => intro _; rfl
  | cons c rest ih =>
    intro hfg
    have hc : f c ≤ g c := hfg c (List.mem_cons_self _ _)
    have hrest := ih (fun x hx => hfg x (List.mem_cons_of_mem _ hx))
    rw [show (c :: rest).flatMap (fun c => [f c, g c]) =
        f c :: g c :: rest.flatMap (fun c => [f c, g c]) from by simp,
      List.map_cons, listMax_cons, listMax_cons, listMax_cons, hrest]
    cases hL : listMax (rest.map g) with
    | none => simp [max_eq_right hc]
    | some mr => simp [← max_assoc, max_eq_right hc]

/-- Claim C3: for every non-empty set of surviving components (contour
trimmer) or valid text boxes (OCR trimmer), the final crop rectangle is the
union bounding box — left/top edges the minimum and right/bottom edges the
maximum over all contributing rectangles — expanded by the (non-negative)
padding and clamped to the image bounds, and it fully contains every
contributing in-bounds rectangle: no accepted region is partially clipped. -/
theorem claim_C3_union_bbox_containment :
    (∀ (W H : Nat) (padding : Int) (valid : List Contour) (x1 y1 x2 y2 : Int),
      0 ≤ padding →
      (∀ c ∈ valid, c.rect.inBounds (W : Int) (H : Int)) →
      contourCropRegion W H padding valid = some (x1, y1, x2, y2) →
      ((∃ ml mt mr mb,
          listMin (valid.map fun c => c.rect.x) = some ml ∧
          listMin (valid.map fun c => c.rect.y) = some mt ∧
          listMax (valid.map fun c => c.rect.x + c.rect.w) = some mr ∧
          listMax (valid.map fun c => c.rect.y + c.rect.h) = some mb ∧
          x1 = max 0 (ml - padding) ∧ y1 = max 0 (mt - padding) ∧
          x2 = min (W : Int) (mr + padding) ∧ y2 = min (H : Int) (mb + padding)) ∧
        ∀ c ∈ valid, x1 ≤ c.rect.x ∧ c.rect.x + c.rect.w ≤ x2 ∧
          y1 ≤ c.rect.y ∧ c.rect.y + c.rect.h ≤ y2)) ∧
    (∀ (img : PILImage) (padding : Int) (valid : List OcrBox) (x1 y1 x2 y2 : Int),
      0 ≤ padding →
      (∀ b ∈ valid, 0 ≤ b.left ∧ 0 ≤ b.top ∧ 0 ≤ b.width ∧ 0 ≤ b.height ∧
        b.left + b.width ≤ (img.width : Int) ∧
        b.top + b.height ≤ (img.height : Int)) →
      ocrCropRegion img padding valid = some (x1, y1, x2, y2) →
      ∀ b ∈ valid, x1 ≤ b.left ∧ b.left + b.width ≤ x2 ∧
        y1 ≤ b.top ∧ b.top + b.height ≤ y2) := by
  constructor
  · intro W H padding valid x1 y1 x2 y2 hpad hbounds hreg
    unfold contourCropRegion at hreg
    revert hreg
    cases hminx : listMin (contourXCoords valid) with
    | none => intro hreg; cases hreg
    | some xmin =>
      cases hmaxx : listMax (contourXCoords valid) with
      | none => intro hreg; cases hreg
      | some xmax =>
        cases hminy : listMin (contourYCoords valid) with
        | none => intro hreg; cases hreg
        | some ymin =>
          cases hmaxy : listMax (contourYCoords valid) with
          | none => intro hreg; cases hreg
          | some ymax =>
            intro hreg
            simp only at hreg
            split_ifs at hreg with hcond
            push_neg at hcond
            simp only [Option.some.injEq, Prod.mk.injEq] at hreg
            obtain ⟨rfl, rfl, rfl, rfl⟩ := hreg
            have hwle : ∀ c ∈ valid,
                (fun c : Contour => c.rect.x) c ≤
                  (fun c : Contour => c.rect.x + c.rect.w) c := by
              intro c hc
              obtain ⟨-, -, hw0, -, -, -⟩ := hbounds c hc
              simp only
              omega
            have hhle : ∀ c ∈ valid,
                (fun c : Contour => c.rect.y) c ≤
                  (fun c : Contour => c.rect.y + c.rect.h) c := by
              intro c hc
              obtain ⟨-, -, -, hh0, -, -⟩ := hbounds c hc
              simp only
              omega
            constructor
            · refine ⟨xmin, ymin, xmax, ymax, ?_, ?_, ?_, ?_, rfl, rfl, by ring_nf, by ring_nf⟩
              · rw [← listMin_flatMap_pair _ _ valid hwle]
                exact hminx
              · rw [← listMin_flatMap_pair _ _ valid hhle]
                exact hminy
              · rw [← listMax_flatMap_pair _ _ valid hwle]
                exact hmaxx
              · rw [← listMax_flatMap_pair _ _ valid hhle]
                exact hmaxy
            · intro c hc
              have hb := hbounds c hc
              obtain ⟨hx0, hy0, hw0, hh0, hxw, hyh⟩ := hb
              have hmx : c.rect.x ∈ contourXCoords valid :=
                List.mem_flatMap.mpr ⟨c, hc, by simp⟩
              have hmx2 : c.rect.x + c.rect.w ∈ contourXCoords valid :=
                List.mem_flatMap.mpr ⟨c, hc, by simp⟩
              have hmy : c.rect.y ∈ contourYCoords valid :=
                List.mem_flatMap.mpr ⟨c, hc, by simp⟩
              have hmy2 : c.rect.y + c.rect.h ∈ contourYCoords valid :=
                List.mem_flatMap.mpr ⟨c, hc, by simp⟩
              have h1 := listMin_le_of_mem hminx hmx
              have h2 := le_listMax_of_mem hmaxx hmx2
              have h3 := listMin_le_of_mem hminy hmy
              have h4 := le_listMax_of_mem hmaxy hmy2
              refine ⟨max_le hx0 (by omega), le_min hxw (by omega),
                max_le hy0 (by omega), le_min hyh (by omega)⟩
  · intro img padding valid x1 y1 x2 y2 hpad hbounds hreg
    unfold ocrCropRegion at hreg
    revert hreg
    cases hminx : listMin (valid.map fun b => b.left) with
    | none => intro hreg; cases hreg
    | some minX =>
      cases hminy : listMin (valid.map fun b => b.top) with
      | none => intro hreg; cases hreg
      | some minY =>
        cases hmaxx : listMax (valid.map fun b => b.left + b.width) with
        | none => intro hreg; cases hreg
        | some maxXW =>
          cases hmaxy : listMax (valid.map fun b => b.top + b.height) with
          | none => intro hreg; cases hreg
          | some maxYH =>
            intro hreg
            simp only at hreg
            split_ifs at hreg with hcond
            push_neg at hcond
            simp only [Option.some.injEq, Prod.mk.injEq] at hreg
            obtain ⟨rfl, rfl, rfl, rfl⟩ := hreg
            intro b hb
            obtain ⟨hx0, hy0, hw0, hh0, hxw, hyh⟩ := hbounds b hb
            have h1 := listMin_le_of_mem hminx
              (List.mem_map_of_mem (fun b => b.left) hb)
            have h2 := le_listMax_of_mem hmaxx
              (List.mem_map_of_mem (fun b => b.left + b.width) hb)
            have h3 := listMin_le_of_mem hminy
              (List.mem_map_of_mem (fun b => b.top) hb)
            have h4 := le_listMax_of_mem hmaxy
              (List.mem_map_of_mem (fun b => b.top + b.height) hb)
            exact ⟨max_le hx0 (by omega), le_min hxw (by omega),
              max_le hy0 (by omega), le_min hyh (by omega)⟩

/-- Witness for claim C3: a single 3×2 component at (1, 1) in a 10×8 image
with padding 1 is fully contained in the crop window (0, 0, 5, 4), and the
sample OCR box at (10, 10, 20, 10) in a 40×30 image with padding 0 is fully
contained in the crop window (10, 10, 30, 20). -/
theorem claim_C3_union_bbox_containment_witness :
    ((0 : Int) ≤ 1 ∧
      (∀ c ∈ [({ area := 50, rect := { x := 1, y := 1, w := 3, h := 2 } } : Contour)],
        c.rect.inBounds ((10 : Nat) : Int) ((8 : Nat) : Int)) ∧
      contourCropRegion 10 8 1
        [{ area := 50, rect := { x := 1, y := 1, w := 3, h := 2 } }] =
        some (0, 0, 5, 4) ∧
      (∀ c ∈ [({ area := 50, rect := { x := 1, y := 1, w := 3, h := 2 } } : Contour)],
        (0 : Int) ≤ c.rect.x ∧ c.rect.x + c.rect.w ≤ 5 ∧
        (0 : Int) ≤ c.rect.y ∧ c.rect.y + c.rect.h ≤ 4)) ∧
    ((0 : Int) ≤ 0 ∧
      (∀ b ∈ [sampleOcrBox], (0 : Int) ≤ b.left ∧ (0 : Int) ≤ b.top ∧
        (0 : Int) ≤ b.width ∧ (0 : Int) ≤ b.height ∧
        b.left + b.width ≤ ((PILImage.mk 40 30).width : Int) ∧
        b.top + b.height ≤ ((PILImage.mk 40 30).height : Int)) ∧
      ocrCropRegion (PILImage.mk 40 30) 0 [sampleOcrBox] = some (10, 10, 30, 20) ∧
      (∀ b ∈ [sampleOcrBox], (10 : Int) ≤ b.left ∧ b.left + b.width ≤ 30 ∧
        (10 : Int) ≤ b.top ∧ b.top + b.height ≤ 20)) :=
  ⟨⟨by decide, by decide, by decide,
      (claim_C3_union_bbox_containment.1 10 8 1
        [{ area := 50, rect := { x := 1, y := 1, w := 3, h := 2 } }]
        0 0 5 4 (by decide) (by decide) (by decide)).2⟩,
    ⟨by decide, by decide, by decide,
      claim_C3_union_bbox_containment.2 (PILImage.mk 40 30) 0 [sampleOcrBox]
        10 10 30 20 (by decide) (by decide) (by decide)⟩⟩

end ImagePipeline
